import Mathlib

/-
Verification development for the HASTUR repository core
(ultrashort-pulse envelope propagation in cylindrical coordinates).

The Python sources are shallowly embedded over exact rationals:
machine floating-point values are modelled by `ℚ` (every float is a
rational), complex machine numbers by the pair type `CQ` below, and
transcendental library routines (`np.exp`, `np.sqrt`, `np.arcsinh`,
real powers, `scipy.integrate.quad`, the FFT pair) are passed as
explicit function parameters, with the properties the claims rely on
stated as hypotheses.  In-place array mutation is modelled by
returning the updated arrays.
-/

/-! ## Complex rational scalars

  Model of machine complex numbers (`np.complex128`): a pair of
  rationals with the usual complex field operations. -/

structure CQ where
  re : ℚ
  im : ℚ
deriving DecidableEq

def CQ.ofQ (q : ℚ) : CQ := ⟨q, 0⟩

instance : Zero CQ := ⟨⟨0, 0⟩⟩

instance : One CQ := ⟨⟨1, 0⟩⟩

instance : Add CQ := ⟨fun a b => ⟨a.re + b.re, a.im + b.im⟩⟩

instance : Neg CQ := ⟨fun a => ⟨-a.re, -a.im⟩⟩

instance : Mul CQ := ⟨fun a b => ⟨a.re * b.re - a.im * b.im, a.re * b.im + a.im * b.re⟩⟩

instance : NatCast CQ := ⟨fun n => ⟨(n : ℚ), 0⟩⟩

/-! ## BandedOperatorBuilder

  Embedding of `SolverFSS.compute_matrix`
  (src/codes/python/acherus/solvers/fss.py, lines 74-130); the same
  construction appears as `crank_nicolson_matrix` in
  src/phd_coding/python/cylindrical/water_2d1_fcn_rk4.py.
  The three numpy diagonal arrays are modelled as `List CQ`; the numpy
  `np.arange(1, n_r - 1)` is `List.range' 1 (n_r - 2)`, `np.append`
  is `++ [0]`, `np.insert(d, 0, [0])` is `0 :: d`, and the in-place
  boundary overrides `diag[k] = v` are `List.set k v`.  The banded
  (left) and sparse DIA (right) return formats both represent the same
  tridiagonal operator, which we expose as its entry function. -/

def cn_diag_lower (n_r : ℕ) (coef_d : CQ) : List CQ :=
  ((List.range' 1 (n_r - 2)).map
      (fun (i : ℕ) => -coef_d * CQ.ofQ (1 - (1 / 2 : ℚ) / (i : ℚ)))) ++ [0]

def cn_diag_main_raw (n_r : ℕ) (coef_d : CQ) : List CQ :=
  List.replicate n_r (1 + 2 * coef_d)

def cn_diag_upper_raw (n_r : ℕ) (coef_d : CQ) : List CQ :=
  0 :: (List.range' 1 (n_r - 2)).map
      (fun (i : ℕ) => -coef_d * CQ.ofQ (1 + (1 / 2 : ℚ) / (i : ℚ)))

/-- Entry function of the tridiagonal operator built by
`SolverFSS.compute_matrix`: row `i`, column `j`. -/
def compute_matrix (n_r : ℕ) (m_p : String) (coef_d : CQ) : ℕ → ℕ → CQ :=
  let coef_main := 1 + 2 * coef_d
  let diag_main :=
    if m_p = "left" then
      ((cn_diag_main_raw n_r coef_d).set 0 coef_main).set (n_r - 1) 1
    else if m_p = "right" then
      ((cn_diag_main_raw n_r coef_d).set 0 coef_main).set (n_r - 1) 0
    else cn_diag_main_raw n_r coef_d
  let diag_upper :=
    if m_p = "left" ∨ m_p = "right" then
      (cn_diag_upper_raw n_r coef_d).set 0 (-(2 * coef_d))
    else cn_diag_upper_raw n_r coef_d
  let diag_lower := cn_diag_lower n_r coef_d
  fun i j =>
    if i = j then diag_main.getD i 0
    else if j = i + 1 then diag_upper.getD i 0
    else if i = j + 1 then diag_lower.getD j 0
    else 0

/-! ## IonizationEngine

  Embedding of src/codes/python/aiurpy/core/ionization.py.
  A 2D numpy array is modelled as a total function `Mat := ℕ → ℕ → ℚ`
  (only indices below `n_r`, `n_t` are ever relied on); `np.abs` on the
  (real-valued) field amplitude is `|·|`.  The transcendental library
  calls are explicit parameters:
  `rexp` models `np.exp`, `rsqrt` models `np.sqrt`,
  `rasinh` models `np.arcsinh`, `rpow x p` models `x ** p` for a
  non-integer exponent, and `quad x` models
  `scipy.integrate.quad(fun y => np.exp(y ** 2), 0, x)`. -/

def Mat : Type := ℕ → ℕ → ℚ

/-- `phi_integral` (ionization.py lines 175-201): the special function
`Φ(x) = exp(-x²) · ∫₀ˣ exp(y²) dy`, returning `0.0` for `x ≤ 0`. -/
def phi_integral (rexp quad : ℚ → ℚ) (upper_l : ℚ) : ℚ :=
  if upper_l ≤ 0 then 0 else rexp (-(upper_l ^ 2)) * quad upper_l

/-- One term of the PPT exponential series at integer index `n`
(the body of the `while` loop of `compute_sum`). -/
def series_term (rexp rsqrt quad : ℚ → ℚ) (alpha_s beta_s nu_thr : ℚ) (n : ℤ) : ℚ :=
  rexp (-(alpha_s * ((n : ℚ) - nu_thr))) *
    phi_integral rexp quad (rsqrt (beta_s * ((n : ℚ) - nu_thr)))

/-- The `while True` loop of `compute_sum` (ionization.py lines 157-171).
State: current index `idx` and running `sum_value`; the result also
carries the number of terms that were evaluated.  The source's hard-cap
test `idx > idx_min + max_idx` (with `max_idx = 200`) is represented by
the structural counter `fuel = idx_min + 200 - idx`, which reaches `0`
exactly when the cap breaks the loop; the caller starts the loop at
`idx = idx_min` with `fuel = 200`. -/
def sumLoop (rexp rsqrt quad : ℚ → ℚ) (alpha_s beta_s nu_thr tol : ℚ) :
    ℤ → ℚ → ℕ → ℚ × ℕ
  | idx, sum_value, fuel =>
    let sum_term := series_term rexp rsqrt quad alpha_s beta_s nu_thr idx
    let s := sum_value + sum_term
    if sum_term < tol * s then (s, 1)
    else
      match fuel with
      | 0 => (s, 1)
      | fuel + 1 =>
        let r := sumLoop rexp rsqrt quad alpha_s beta_s nu_thr tol (idx + 1) s fuel
        (r.1, r.2 + 1)

/-- `compute_sum` (ionization.py lines 123-172): the convergent series
evaluation.  `nu_thr = coef_nu * idx_ppt_s`, summation starts at
`idx_min = ⌈nu_thr⌉` with partial sum `0.0`. -/
def compute_sum (rexp rsqrt quad : ℚ → ℚ)
    (alpha_s beta_s idx_ppt_s coef_nu tol : ℚ) : ℚ :=
  let nu_thr := coef_nu * idx_ppt_s
  (sumLoop rexp rsqrt quad alpha_s beta_s nu_thr tol ⌈nu_thr⌉ 0 200).1

/-- Number of series terms evaluated by the `compute_sum` loop. -/
def compute_sum_terms (rexp rsqrt quad : ℚ → ℚ)
    (alpha_s beta_s idx_ppt_s coef_nu tol : ℚ) : ℕ :=
  let nu_thr := coef_nu * idx_ppt_s
  (sumLoop rexp rsqrt quad alpha_s beta_s nu_thr tol ⌈nu_thr⌉ 0 200).2

/-- Partial sum of the first `k` series terms starting at index `start`. -/
def sumUpTo (rexp rsqrt quad : ℚ → ℚ) (alpha_s beta_s nu_thr : ℚ)
    (start : ℤ) (k : ℕ) : ℚ :=
  ∑ j in Finset.range k, series_term rexp rsqrt quad alpha_s beta_s nu_thr (start + j)

/-- `compute_a_gamma` (ionization.py lines 204-209). -/
def compute_a_gamma (asinh beta : ℚ) : ℚ := 2 * asinh - beta

/-- `compute_b_gamma` (ionization.py lines 212-217). -/
def compute_b_gamma (rsqrt : ℚ → ℚ) (gamma : ℚ) : ℚ :=
  2 * gamma / rsqrt (1 + gamma ^ 2)

/-- `compute_g_gamma` (ionization.py lines 220-225). -/
def compute_g_gamma (gamma asinh idx beta : ℚ) : ℚ :=
  (3 / 2 / gamma) * (idx * asinh - 1 / beta)

/-- `compute_idx_gamma` (ionization.py lines 236-241). -/
def compute_idx_gamma (gamma : ℚ) : ℚ := 1 + (1 / 2) / gamma ^ 2

/-- The `ns_term` prefactor of the PPT branch (ionization.py lines 88-91),
as a function of the field magnitude `m`:
`(2·coef_f0 / (m·√(1+γ²))) ** (2·coef_ns - 1.5)` with `γ = coef_ga / m`. -/
def ppt_ns_term (rsqrt : ℚ → ℚ) (rpow : ℚ → ℚ → ℚ)
    (coef_f0 coef_ns coef_ga m : ℚ) : ℚ :=
  rpow (2 * coef_f0 / (m * rsqrt (1 + (coef_ga / m) ^ 2))) (2 * coef_ns - 3 / 2)

/-- The `g_term` prefactor of the PPT branch (ionization.py lines 93-94):
`exp(-2·coef_f0·g(γ) / (3·m))`. -/
def ppt_g_term (rexp rsqrt rasinh : ℚ → ℚ) (coef_f0 coef_ga m : ℚ) : ℚ :=
  rexp (-2 * coef_f0 *
      compute_g_gamma (coef_ga / m) (rasinh (coef_ga / m))
        (compute_idx_gamma (coef_ga / m)) (compute_b_gamma rsqrt (coef_ga / m)) /
    (3 * m))

/-- The `g_term_2` prefactor of the PPT branch (ionization.py line 97):
`(0.5·β(γ))²`. -/
def ppt_g_term_2 (rsqrt : ℚ → ℚ) (coef_ga m : ℚ) : ℚ :=
  (1 / 2 * compute_b_gamma rsqrt (coef_ga / m)) ^ 2

/-- `compute_ionization` (ionization.py lines 13-120).  The pre-allocated
arrays `ion_rate`, `ion_sum` are inputs; the function returns the pair
(rate, sum) after the call (mutation is modelled by returning the
updated arrays; raising `ValueError` is modelled by `Except.error`).
In the PPT branch, the point loop updates `ion_sum` only at indices
`i < n_r`, `j < n_t` whose field magnitude is not below `1e-12`
(the `continue` skip), after which the full-slice assignment
`ion_rate[:] = coef_ion * ns_term * g_term * g_term_2 * ion_sum`
rebuilds every rate entry. -/
def compute_ionization (rexp rsqrt rasinh quad : ℚ → ℚ) (rpow : ℚ → ℚ → ℚ)
    (env ion_rate ion_sum : Mat) (n_k n_r n_t : ℕ)
    (coef_f0 coef_ns coef_ga coef_nu coef_ion coef_ofi : ℚ)
    (ion_model : String) (tol : ℚ) : Except String (Mat × Mat) :=
  let env_mod : Mat := fun i j => |env i j|
  if ion_model = "mpi" then
    Except.ok (fun i j => coef_ofi * env_mod i j ^ (2 * n_k), ion_sum)
  else if ion_model = "ppt" then
    let gamma_ppt : Mat := fun i j => coef_ga / env_mod i j
    let beta_ppt : Mat := fun i j => compute_b_gamma rsqrt (gamma_ppt i j)
    let alpha_ppt : Mat := fun i j =>
      compute_a_gamma (rasinh (gamma_ppt i j)) (beta_ppt i j)
    let ns_term : Mat := fun i j =>
      ppt_ns_term rsqrt rpow coef_f0 coef_ns coef_ga (env_mod i j)
    let g_term : Mat := fun i j => ppt_g_term rexp rsqrt rasinh coef_f0 coef_ga (env_mod i j)
    let g_term_2 : Mat := fun i j => ppt_g_term_2 rsqrt coef_ga (env_mod i j)
    let ion_sum2 : Mat := fun i j =>
      if i < n_r ∧ j < n_t ∧ ¬ env_mod i j < 1 / 10 ^ 12 then
        compute_sum rexp rsqrt quad (alpha_ppt i j) (beta_ppt i j) (gamma_ppt i j)
          coef_nu tol
      else ion_sum i j
    let ion_rate2 : Mat := fun i j =>
      coef_ion * ns_term i j * g_term i j * g_term_2 i j * ion_sum2 i j
    Except.ok (ion_rate2, ion_sum2)
  else
    Except.error ("Not available ionization model: " ++ ion_model ++
      ". Available models are: ppt or mpi.")

/-! ## Commit-time validation

  Embedding of `validate_step`
  (src/codes/python/aiurpy/results/routines.py, lines 17-52).
  A machine float is modelled by `FV`: either a finite rational or one
  of the non-finite IEEE values (`nan`, `+inf`, `-inf`); `np.isfinite`
  is `FV.isFinite` and `np.any(~np.isfinite(a))` is
  `a.any (fun row => row.any (fun v => !v.isFinite))`.
  `sys.exit(1)` is modelled by the outcome `exited 1`, returning
  `True`/`False` by `ok`/`invalid`. -/

inductive FV where
  | fin : ℚ → FV
  | nan : FV
  | posInf : FV
  | negInf : FV
deriving DecidableEq

def FV.isFinite : FV → Bool
  | FV.fin _ => true
  | _ => false

inductive ValidateOutcome where
  | ok : ValidateOutcome
  | invalid : ValidateOutcome
  | exited : ℕ → ValidateOutcome
deriving DecidableEq

/-- `validate_step(solver, exit_on_error)` checking `solver.envelope_rt`
then `solver.density_rt` for non-finite values. -/
def validate_step (envelope_rt density_rt : List (List FV))
    (exit_on_error : Bool) : ValidateOutcome :=
  if envelope_rt.any (fun row => row.any (fun v => !v.isFinite)) then
    if exit_on_error then ValidateOutcome.exited 1 else ValidateOutcome.invalid
  else if density_rt.any (fun row => row.any (fun v => !v.isFinite)) then
    if exit_on_error then ValidateOutcome.exited 1 else ValidateOutcome.invalid
  else ValidateOutcome.ok

/-! ## SpectralDispersionStep

  Embedding of `SolverFSS.set_operators` (the `disp_c` coefficient and
  the `disp_exp` spectral phase, fss.py lines 132-139) and
  `SolverFSS.compute_dispersion` (fss.py lines 145-151).
  The FFT pair and the complex exponential are parameters (`compute_fft`,
  `compute_ifft`, `cexp`); the frequency grid `2π·fftfreq(...)` is the
  parameter `w_grid`.  A single radial row is modelled (the step is
  row-wise with no coupling between rows). -/

/-- `disp_c = -0.25 * z_res * k_pp / t_res**2`. -/
def disp_c (z_res k_pp t_res : ℚ) : ℚ := -(1 / 4) * z_res * k_pp / t_res ^ 2

/-- `disp_exp = np.exp(-2j * disp_c * (w_grid * t_res) ** 2)` at one
frequency value `w`; `-2j·x` for real `x` is the complex number `⟨0, -2x⟩`. -/
def disp_exp (cexp : CQ → CQ) (z_res k_pp t_res : ℚ) (w : ℚ) : CQ :=
  cexp ⟨0, -2 * disp_c z_res k_pp t_res * (w * t_res) ^ 2⟩

/-- `compute_dispersion`:
`envelope_split = compute_fft(disp_exp * compute_ifft(envelope))`. -/
def compute_dispersion (compute_fft compute_ifft : (ℕ → CQ) → ℕ → CQ)
    (cexp : CQ → CQ) (z_res k_pp t_res : ℚ) (w_grid : ℕ → ℚ)
    (envelope_row : ℕ → CQ) : ℕ → CQ :=
  compute_fft
    (fun n => disp_exp cexp z_res k_pp t_res (w_grid n) * compute_ifft envelope_row n)

/-! ## StepOrchestrator

  Embedding of `SolverFSS.solve_step` (fss.py lines 167-255).  The
  component routines live in modules outside the excerpted sources, so
  they are abstract parameters (`FssOps`) acting on abstract complex
  (`E`) and real (`R`) array states; `solve_step` threads the solver
  state through them in exactly the source's call order and also
  returns the list of phase events in execution order. -/

inductive StepEvent where
  | intensity : StepEvent
  | ionization : StepEvent
  | density : StepEvent
  | raman : StepEvent
  | dispersion : StepEvent
  | nonlinear : StepEvent
  | diffraction : StepEvent
  | fluence : StepEvent
  | radius : StepEvent
  | commit : StepEvent
deriving DecidableEq

structure FssBuffers (E R : Type) where
  envelope_rt : E
  envelope_split_rt : E
  envelope_next_rt : E
  intensity_rt : R
  ionization_rate : R
  ionization_sum : R
  density_rt : R
  raman_rt : R
  draman_rt : R
  nonlinear_rt : E
  fluence_r : R
  radius : R

structure FssOps (E R : Type) where
  compute_intensity : E → R
  compute_ionization : R → R × R
  compute_density_rk4 : R → R → R → R
  compute_density : R → R → R → R
  compute_raman_rk4 : R → R → R → R × R
  compute_raman : R → R → R
  raman_zero : R
  compute_dispersion : E → E
  compute_nonlinear_rk4 : E → R → R → R → E
  compute_envelope : E → E → E
  compute_fluence : E → R
  compute_radius : R → R

/-- One propagation step (`SolverFSS.solve_step`): intensity and
ionization, density advance (RK4 or alternative), Raman advance (RK4,
alternative, or zero fill when Raman is disabled), dispersion,
nonlinear assembly (only when the nonlinear method is RK4), the
implicit diffraction solve (`compute_envelope`), fluence and radius
diagnostics, and the final in-place buffer exchange.  The second
component is the trace of phases in execution order. -/
def solve_step {E R : Type} (ops : FssOps E R)
    (method_d method_r method_nl : String) (use_raman : Bool)
    (s0 : FssBuffers E R) : FssBuffers E R × List StepEvent :=
  let intensity_f := ops.compute_intensity s0.envelope_rt
  let s1 := { s0 with intensity_rt := intensity_f }
  let ion := ops.compute_ionization s1.intensity_rt
  let s2 := { s1 with ionization_rate := ion.1, ionization_sum := ion.2 }
  let s3 :=
    if method_d = "RK4" then
      { s2 with density_rt :=
          ops.compute_density_rk4 s2.intensity_rt s2.density_rt s2.ionization_rate }
    else
      { s2 with density_rt :=
          ops.compute_density intensity_f s2.density_rt s2.ionization_rate }
  let s4 :=
    if use_raman then
      if method_r = "RK4" then
        let rr := ops.compute_raman_rk4 s3.raman_rt s3.draman_rt s3.intensity_rt
        { s3 with raman_rt := rr.1, draman_rt := rr.2 }
      else
        { s3 with raman_rt := ops.compute_raman s3.raman_rt intensity_f }
    else { s3 with raman_rt := ops.raman_zero }
  let s5 := { s4 with envelope_split_rt := ops.compute_dispersion s4.envelope_rt }
  let s6 :=
    if method_nl = "RK4" then
      { s5 with nonlinear_rt :=
          (ops.compute_nonlinear_rk4 s5.envelope_split_rt s5.density_rt
            s5.raman_rt s5.ionization_rate) }
    else s5
  let s7 := { s6 with envelope_next_rt :=
      ops.compute_envelope s6.envelope_split_rt s6.nonlinear_rt }
  let s8 := { s7 with fluence_r := ops.compute_fluence s7.envelope_next_rt }
  let s9 := { s8 with radius := ops.compute_radius s8.fluence_r }
  let s10 := { s9 with envelope_rt := s9.envelope_next_rt }
  let s11 := { s10 with envelope_next_rt := s10.envelope_rt }
  (s11,
    [StepEvent.intensity, StepEvent.ionization, StepEvent.density, StepEvent.raman,
      StepEvent.dispersion] ++
    (if method_nl = "RK4" then [StepEvent.nonlinear] else []) ++
    [StepEvent.diffraction, StepEvent.fluence, StepEvent.radius, StepEvent.commit])

/-- The event types named by the specification's per-step sequence. -/
def specPhases : List StepEvent :=
  [StepEvent.ionization, StepEvent.density, StepEvent.raman, StepEvent.nonlinear,
    StepEvent.dispersion, StepEvent.diffraction, StepEvent.commit]

/-! ## Envelope double buffering

  Embedding of the commit
  `self.envelope_rt[:], self.envelope_next_rt[:] = (self.envelope_next_rt, self.envelope_rt)`
  (fss.py lines 252-255).  Python evaluates the right-hand tuple to a
  pair of references to the two array objects and then performs the two
  in-place slice copies from left to right.  The first copy overwrites
  the contents of `envelope_rt` with the contents of
  `envelope_next_rt`; the second copy then reads the contents of the
  `envelope_rt` object as they are at that moment, after the first
  copy.  The record below holds the contents of the two (always
  distinct) array objects, and the two sequential updates model the two
  slice copies. -/

structure EnvelopePair (E : Type) where
  envelope_rt : E
  envelope_next_rt : E
deriving DecidableEq

def commit_swap {E : Type} (s : EnvelopePair E) : EnvelopePair E :=
  let s1 := { s with envelope_rt := s.envelope_next_rt }
  let s2 := { s1 with envelope_next_rt := s1.envelope_rt }
  s2


/-! ## Theorems -/

theorem CQ.one_mul_self (a : CQ) : (1 : CQ) * a = a := by
  cases a with
  | mk x y =>
    refine congrArg₂ CQ.mk ?_ ?_
    · show (1 : ℚ) * x - 0 * y = x
      ring
    · show (1 : ℚ) * y + 0 * x = y
      ring

theorem list_getD_set_ne {α : Type} (a d : α) :
    ∀ (l : List α) (m n : ℕ), m ≠ n → (l.set m a).getD n d = l.getD n d
  | [], _, _, _ => rfl
  | _ :: _, 0, 0, h => absurd rfl h
  | _ :: _, 0, _ + 1, _ => rfl
  | _ :: _, _ + 1, 0, _ => rfl
  | _ :: t, m + 1, n + 1, h => by
    show (t.set m a).getD n d = t.getD n d
    exact list_getD_set_ne a d t m n (fun e => h (by rw [e]))

theorem list_getD_set_self {α : Type} (a d : α) :
    ∀ (l : List α) (n : ℕ), n < l.length → (l.set n a).getD n d = a
  | [], n, h => absurd h (by simp)
  | _ :: _, 0, _ => rfl
  | _ :: t, n + 1, h => by
    show (t.set n a).getD n d = a
    exact list_getD_set_self a d t n (by simpa using h)

theorem list_getD_replicate {α : Type} (a d : α) :
    ∀ (k n : ℕ), n < k → (List.replicate k a).getD n d = a
  | 0, _, h => absurd h (by omega)
  | _ + 1, 0, _ => rfl
  | k + 1, n + 1, h => by
    show (List.replicate k a).getD n d = a
    exact list_getD_replicate a d k n (by omega)

theorem list_getD_append_left {α : Type} (d : α) :
    ∀ (l₁ l₂ : List α) (n : ℕ), n < l₁.length → (l₁ ++ l₂).getD n d = l₁.getD n d
  | [], _, _, h => absurd h (by simp)
  | _ :: _, _, 0, _ => rfl
  | _ :: t, l₂, n + 1, h => by
    show (t ++ l₂).getD n d = t.getD n d
    exact list_getD_append_left d t l₂ n (by simpa using h)

theorem list_getD_map_range' {α : Type} (f : ℕ → α) (d : α) :
    ∀ (k s n : ℕ), n < k → ((List.range' s k).map f).getD n d = f (s + n)
  | 0, _, _, h => absurd h (by omega)
  | _ + 1, s, 0, _ => by
    show f s = f (s + 0)
    rw [Nat.add_zero]
  | k + 1, s, n + 1, h => by
    show ((List.range' (s + 1) k).map f).getD n d = f (s + (n + 1))
    rw [list_getD_map_range' f d k (s + 1) n (by omega)]
    congr 1
    omega

theorem compute_matrix_left_apply (n_r : ℕ) (c : CQ) (i j : ℕ) :
    compute_matrix n_r "left" c i j =
      if i = j then
        (((cn_diag_main_raw n_r c).set 0 (1 + 2 * c)).set (n_r - 1) 1).getD i 0
      else if j = i + 1 then
        ((cn_diag_upper_raw n_r c).set 0 (-(2 * c))).getD i 0
      else if i = j + 1 then (cn_diag_lower n_r c).getD j 0
      else 0 := rfl

theorem compute_matrix_right_apply (n_r : ℕ) (c : CQ) (i j : ℕ) :
    compute_matrix n_r "right" c i j =
      if i = j then
        (((cn_diag_main_raw n_r c).set 0 (1 + 2 * c)).set (n_r - 1) 0).getD i 0
      else if j = i + 1 then
        ((cn_diag_upper_raw n_r c).set 0 (-(2 * c))).getD i 0
      else if i = j + 1 then (cn_diag_lower n_r c).getD j 0
      else 0 := rfl

theorem cn_diag_lower_getD_interior (n_r : ℕ) (c : CQ) (k : ℕ) (hk : k < n_r - 2) :
    (cn_diag_lower n_r c).getD k 0 =
      -c * CQ.ofQ (1 - (1 / 2 : ℚ) / ((k + 1 : ℕ) : ℚ)) := by
  unfold cn_diag_lower
  rw [list_getD_append_left _ _ _ _
      (by rw [List.length_map, List.length_range']; exact hk)]
  rw [list_getD_map_range' _ _ _ _ _ hk, Nat.add_comm 1 k]

theorem cn_diag_lower_getD_last (n_r : ℕ) (c : CQ) :
    (cn_diag_lower n_r c).getD (n_r - 2) 0 = 0 := by
  unfold cn_diag_lower
  have hlen : ((List.range' 1 (n_r - 2)).map
      (fun (i : ℕ) => -c * CQ.ofQ (1 - (1 / 2 : ℚ) / (i : ℚ)))).length = n_r - 2 := by
    rw [List.length_map, List.length_range']
  rw [List.getD_append_right _ _ _ _ (by rw [hlen]), hlen, Nat.sub_self]
  rfl

theorem cn_diag_upper_set_getD_zero (n_r : ℕ) (c v : CQ) :
    ((cn_diag_upper_raw n_r c).set 0 v).getD 0 0 = v := rfl

theorem cn_diag_upper_set_getD_interior (n_r : ℕ) (c v : CQ) (k : ℕ)
    (hk : k < n_r - 2) :
    ((cn_diag_upper_raw n_r c).set 0 v).getD (k + 1) 0 =
      -c * CQ.ofQ (1 + (1 / 2 : ℚ) / ((k + 1 : ℕ) : ℚ)) := by
  show ((List.range' 1 (n_r - 2)).map
      (fun (i : ℕ) => -c * CQ.ofQ (1 + (1 / 2 : ℚ) / (i : ℚ)))).getD k 0 = _
  rw [list_getD_map_range' _ _ _ _ _ hk, Nat.add_comm 1 k]

theorem cn_diag_upper_set_getD_out (n_r : ℕ) (c v : CQ) (h : 2 ≤ n_r) :
    ((cn_diag_upper_raw n_r c).set 0 v).getD (n_r - 1) 0 = 0 := by
  refine List.getD_eq_default _ _ ?_
  rw [List.length_set]
  unfold cn_diag_upper_raw
  rw [List.length_cons, List.length_map, List.length_range']
  omega

theorem cn_diag_main_getD_interior (n_r : ℕ) (c cm v : CQ) (i : ℕ)
    (hi : i < n_r) (h0 : i ≠ 0) (hl : i ≠ n_r - 1) :
    (((cn_diag_main_raw n_r c).set 0 cm).set (n_r - 1) v).getD i 0 = 1 + 2 * c := by
  rw [list_getD_set_ne _ _ _ _ _ (by omega), list_getD_set_ne _ _ _ _ _ (by omega)]
  exact list_getD_replicate _ _ n_r i hi

theorem cn_diag_main_getD_last (n_r : ℕ) (c cm v : CQ) (h : 1 ≤ n_r) :
    (((cn_diag_main_raw n_r c).set 0 cm).set (n_r - 1) v).getD (n_r - 1) 0 = v := by
  refine list_getD_set_self _ _ _ _ ?_
  rw [List.length_set]
  unfold cn_diag_main_raw
  rw [List.length_replicate]
  omega

/-- C2: for every node count `Nr ≥ 3` and complex coefficient `c`, the
tridiagonal operators built by `compute_matrix` have, at each interior
node `1 ≤ i ≤ Nr-2`, lower off-diagonal `-c·(1 - 0.5/i)`, main diagonal
`1 + 2c`, and upper off-diagonal `-c·(1 + 0.5/i)`; at the axis node the
upper off-diagonal is `-2c` (Neumann reflection); at the outer node the
left operator has main entry `1` and zero off-diagonals (Dirichlet) and
the right operator has main entry `0` and zero off-diagonals
(absorbing). -/
theorem spec_c2_banded_operator_entries (n_r : ℕ) (coef_d : CQ) (h3 : 3 ≤ n_r) :
    (∀ m_p, (m_p = "left" ∨ m_p = "right") → ∀ i, 1 ≤ i → i ≤ n_r - 2 →
      compute_matrix n_r m_p coef_d i (i - 1) =
          -coef_d * CQ.ofQ (1 - (1 / 2 : ℚ) / (i : ℚ)) ∧
        compute_matrix n_r m_p coef_d i i = 1 + 2 * coef_d ∧
        compute_matrix n_r m_p coef_d i (i + 1) =
          -coef_d * CQ.ofQ (1 + (1 / 2 : ℚ) / (i : ℚ)) ∧
        compute_matrix n_r m_p coef_d 0 1 = -(2 * coef_d)) ∧
      compute_matrix n_r "left" coef_d (n_r - 1) (n_r - 1) = 1 ∧
      compute_matrix n_r "left" coef_d (n_r - 1) (n_r - 2) = 0 ∧
      compute_matrix n_r "left" coef_d (n_r - 1) n_r = 0 ∧
      compute_matrix n_r "right" coef_d (n_r - 1) (n_r - 1) = 0 ∧
      compute_matrix n_r "right" coef_d (n_r - 1) (n_r - 2) = 0 ∧
      compute_matrix n_r "right" coef_d (n_r - 1) n_r = 0 := by
  constructor
  · rintro m_p (rfl | rfl) i h1 h2 <;>
      obtain ⟨k, rfl⟩ : ∃ k, i = k + 1 := ⟨i - 1, by omega⟩ <;>
      refine ⟨?_, ?_, ?_, ?_⟩
    · rw [compute_matrix_left_apply, if_neg (by omega), if_neg (by omega),
        if_pos (by omega), Nat.add_sub_cancel]
      exact cn_diag_lower_getD_interior n_r coef_d k (by omega)
    · rw [compute_matrix_left_apply, if_pos rfl]
      exact cn_diag_main_getD_interior n_r coef_d _ _ (k + 1) (by omega)
        (by omega) (by omega)
    · rw [compute_matrix_left_apply, if_neg (by omega), if_pos rfl]
      exact cn_diag_upper_set_getD_interior n_r coef_d _ k (by omega)
    · rw [compute_matrix_left_apply, if_neg (by omega), if_pos rfl]
      exact cn_diag_upper_set_getD_zero n_r coef_d _
    · rw [compute_matrix_right_apply, if_neg (by omega), if_neg (by omega),
        if_pos (by omega), Nat.add_sub_cancel]
      exact cn_diag_lower_getD_interior n_r coef_d k (by omega)
    · rw [compute_matrix_right_apply, if_pos rfl]
      exact cn_diag_main_getD_interior n_r coef_d _ _ (k + 1) (by omega)
        (by omega) (by omega)
    · rw [compute_matrix_right_apply, if_neg (by omega), if_pos rfl]
      exact cn_diag_upper_set_getD_interior n_r coef_d _ k (by omega)
    · rw [compute_matrix_right_apply, if_neg (by omega), if_pos rfl]
      exact cn_diag_upper_set_getD_zero n_r coef_d _
  refine ⟨?_, ?_, ?_, ?_, ?_, ?_⟩
  · rw [compute_matrix_left_apply, if_pos rfl]
    exact cn_diag_main_getD_last n_r coef_d _ _ (by omega)
  · rw [compute_matrix_left_apply, if_neg (by omega), if_neg (by omega),
      if_pos (by omega)]
    exact cn_diag_lower_getD_last n_r coef_d
  · rw [compute_matrix_left_apply, if_neg (by omega), if_pos (by omega)]
    exact cn_diag_upper_set_getD_out n_r coef_d _ (by omega)
  · rw [compute_matrix_right_apply, if_pos rfl]
    exact cn_diag_main_getD_last n_r coef_d _ _ (by omega)
  · rw [compute_matrix_right_apply, if_neg (by omega), if_neg (by omega),
      if_pos (by omega)]
    exact cn_diag_lower_getD_last n_r coef_d
  · rw [compute_matrix_right_apply, if_neg (by omega), if_pos (by omega)]
    exact cn_diag_upper_set_getD_out n_r coef_d _ (by omega)

/-- Witness for C2 at the concrete grid `Nr = 4`, `c = i` (the purely
imaginary unit coefficient). -/
theorem spec_c2_banded_operator_entries_witness :
    3 ≤ 4 ∧
      ((∀ m_p, (m_p = "left" ∨ m_p = "right") → ∀ i, 1 ≤ i → i ≤ 4 - 2 →
        compute_matrix 4 m_p ⟨0, 1⟩ i (i - 1) =
            -(⟨0, 1⟩ : CQ) * CQ.ofQ (1 - (1 / 2 : ℚ) / (i : ℚ)) ∧
          compute_matrix 4 m_p ⟨0, 1⟩ i i = 1 + 2 * (⟨0, 1⟩ : CQ) ∧
          compute_matrix 4 m_p ⟨0, 1⟩ i (i + 1) =
            -(⟨0, 1⟩ : CQ) * CQ.ofQ (1 + (1 / 2 : ℚ) / (i : ℚ)) ∧
          compute_matrix 4 m_p ⟨0, 1⟩ 0 1 = -(2 * (⟨0, 1⟩ : CQ))) ∧
        compute_matrix 4 "left" ⟨0, 1⟩ 3 3 = 1 ∧
        compute_matrix 4 "left" ⟨0, 1⟩ 3 2 = 0 ∧
        compute_matrix 4 "left" ⟨0, 1⟩ 3 4 = 0 ∧
        compute_matrix 4 "right" ⟨0, 1⟩ 3 3 = 0 ∧
        compute_matrix 4 "right" ⟨0, 1⟩ 3 2 = 0 ∧
        compute_matrix 4 "right" ⟨0, 1⟩ 3 4 = 0) :=
  ⟨by omega, spec_c2_banded_operator_entries 4 ⟨0, 1⟩ (by omega)⟩

/-- C7 counterexample: `compute_matrix` performs no grid-size
validation; at `Nr = 2 < 3` it does not fail but returns a well-formed
2×2 operator (shown here at the concrete coefficient `c = i`), so the
claim that every `Nr < 3` fails with `InvalidGridError` is false. -/
theorem spec_c7_counterexample :
    compute_matrix 2 "left" ⟨0, 1⟩ 0 0 = 1 + 2 * (⟨0, 1⟩ : CQ) ∧
      compute_matrix 2 "left" ⟨0, 1⟩ 0 1 = -(2 * (⟨0, 1⟩ : CQ)) ∧
      compute_matrix 2 "left" ⟨0, 1⟩ 1 0 = 0 ∧
      compute_matrix 2 "left" ⟨0, 1⟩ 1 1 = 1 ∧
      compute_matrix 2 "right" ⟨0, 1⟩ 1 1 = 0 := by
  refine ⟨rfl, rfl, rfl, rfl, rfl⟩

/-- C7 amended: no `Nr < 3` validation exists in `compute_matrix`;
for `Nr = 2` (and every coefficient) the build succeeds and returns
the 2×2 operator with main diagonal `[1+2c, 1]` (left) respectively
`[1+2c, 0]` (right), upper corner `-2c` and lower corner `0`.
(For `Nr ≤ 1` the numpy construction fails with a broadcast
`ValueError`, still not an `InvalidGridError`.) -/
theorem spec_c7_amended_no_validation (coef_d : CQ) :
    compute_matrix 2 "left" coef_d 0 0 = 1 + 2 * coef_d ∧
      compute_matrix 2 "left" coef_d 0 1 = -(2 * coef_d) ∧
      compute_matrix 2 "left" coef_d 1 0 = 0 ∧
      compute_matrix 2 "left" coef_d 1 1 = 1 ∧
      compute_matrix 2 "right" coef_d 0 0 = 1 + 2 * coef_d ∧
      compute_matrix 2 "right" coef_d 0 1 = -(2 * coef_d) ∧
      compute_matrix 2 "right" coef_d 1 0 = 0 ∧
      compute_matrix 2 "right" coef_d 1 1 = 0 :=
  ⟨rfl, rfl, rfl, rfl, rfl, rfl, rfl, rfl⟩

theorem sumLoop_spec (rexp rsqrt quad : ℚ → ℚ) (alpha_s beta_s nu_thr tol : ℚ) :
    ∀ (fuel : ℕ) (idx : ℤ) (acc : ℚ),
      (sumLoop rexp rsqrt quad alpha_s beta_s nu_thr tol idx acc fuel).1 =
          acc + ∑ j in Finset.range
              (sumLoop rexp rsqrt quad alpha_s beta_s nu_thr tol idx acc fuel).2,
            series_term rexp rsqrt quad alpha_s beta_s nu_thr (idx + j) ∧
        1 ≤ (sumLoop rexp rsqrt quad alpha_s beta_s nu_thr tol idx acc fuel).2 ∧
        (sumLoop rexp rsqrt quad alpha_s beta_s nu_thr tol idx acc fuel).2 ≤ fuel + 1 := by
  intro fuel
  induction fuel with
  | zero =>
    intro idx acc
    by_cases hc : series_term rexp rsqrt quad alpha_s beta_s nu_thr idx <
        tol * (acc + series_term rexp rsqrt quad alpha_s beta_s nu_thr idx)
    · simp only [sumLoop, if_pos hc]
      refine ⟨?_, le_refl 1, by omega⟩
      simp [Finset.sum_range_one]
    · simp only [sumLoop, if_neg hc]
      refine ⟨?_, le_refl 1, by omega⟩
      simp [Finset.sum_range_one]
  | succ m ih =>
    intro idx acc
    by_cases hc : series_term rexp rsqrt quad alpha_s beta_s nu_thr idx <
        tol * (acc + series_term rexp rsqrt quad alpha_s beta_s nu_thr idx)
    · simp only [sumLoop, if_pos hc]
      refine ⟨?_, le_refl 1, by omega⟩
      simp [Finset.sum_range_one]
    · simp only [sumLoop, if_neg hc]
      obtain ⟨h1, h2, h3⟩ := ih (idx + 1)
        (acc + series_term rexp rsqrt quad alpha_s beta_s nu_thr idx)
      refine ⟨?_, by omega, by omega⟩
      rw [Finset.sum_range_succ']
      have hsum : ∀ j ∈ Finset.range
          (sumLoop rexp rsqrt quad alpha_s beta_s nu_thr tol (idx + 1)
            (acc + series_term rexp rsqrt quad alpha_s beta_s nu_thr idx) m).2,
          series_term rexp rsqrt quad alpha_s beta_s nu_thr (idx + ((j : ℕ) + 1 : ℕ)) =
            series_term rexp rsqrt quad alpha_s beta_s nu_thr (idx + 1 + (j : ℕ)) := by
        intro j _
        congr 1
        push_cast
        ring
      rw [Finset.sum_congr rfl hsum, h1]
      have h0 : series_term rexp rsqrt quad alpha_s beta_s nu_thr (idx + ((0 : ℕ) : ℤ)) =
          series_term rexp rsqrt quad alpha_s beta_s nu_thr idx := by
        congr 1
        push_cast
        ring
      rw [h0]
      ring

/-- C1: for `α ≥ 0`, `β ≥ 0`, any threshold and any tolerance
`tol > 0`, the series evaluation `compute_sum` starts at `⌈ν⌉`
(`ν = coef_nu · idx_ppt_s`), adds terms
`exp(-α(n-ν))·Φ(√(β(n-ν)))` with `Φ(x) = 0` for `x ≤ 0` and `Φ ≥ 0`
otherwise, so its partial sums are monotonically non-decreasing; the
value it returns is the partial sum at the number of evaluated terms,
and at most `201` terms (the start index plus at most `200` additional
ones, the hard cap) are ever evaluated, so it always terminates.  The
hypotheses on `rexp` and `quad` state the positivity facts of the
modelled library functions `np.exp` and `∫₀ˣ exp(y²) dy`. -/
theorem spec_c1_series_convergence (rexp rsqrt quad : ℚ → ℚ)
    (alpha_s beta_s idx_ppt_s coef_nu tol : ℚ)
    (ha : 0 ≤ alpha_s) (hb : 0 ≤ beta_s) (ht : 0 < tol)
    (hexp : ∀ x, 0 ≤ rexp x) (hquad : ∀ x, 0 < x → 0 ≤ quad x) :
    (∀ x, x ≤ 0 → phi_integral rexp quad x = 0) ∧
      Monotone (sumUpTo rexp rsqrt quad alpha_s beta_s (coef_nu * idx_ppt_s)
        ⌈coef_nu * idx_ppt_s⌉) ∧
      compute_sum rexp rsqrt quad alpha_s beta_s idx_ppt_s coef_nu tol =
        sumUpTo rexp rsqrt quad alpha_s beta_s (coef_nu * idx_ppt_s)
          ⌈coef_nu * idx_ppt_s⌉
          (compute_sum_terms rexp rsqrt quad alpha_s beta_s idx_ppt_s coef_nu tol) ∧
      compute_sum_terms rexp rsqrt quad alpha_s beta_s idx_ppt_s coef_nu tol ≤ 201 := by
  have hphi : ∀ x, 0 ≤ phi_integral rexp quad x := by
    intro x
    unfold phi_integral
    by_cases hx : x ≤ 0
    · rw [if_pos hx]
    · rw [if_neg hx]
      exact mul_nonneg (hexp _) (hquad x (by linarith))
  have hterm : ∀ n, 0 ≤ series_term rexp rsqrt quad alpha_s beta_s
      (coef_nu * idx_ppt_s) n := by
    intro n
    exact mul_nonneg (hexp _) (hphi _)
  obtain ⟨h1, h2, h3⟩ := sumLoop_spec rexp rsqrt quad alpha_s beta_s
    (coef_nu * idx_ppt_s) tol 200 ⌈coef_nu * idx_ppt_s⌉ 0
  refine ⟨?_, ?_, ?_, ?_⟩
  · intro x hx
    unfold phi_integral
    rw [if_pos hx]
  · refine monotone_nat_of_le_succ ?_
    intro k
    unfold sumUpTo
    rw [Finset.sum_range_succ]
    have := hterm (⌈coef_nu * idx_ppt_s⌉ + (k : ℕ))
    linarith
  · unfold compute_sum compute_sum_terms sumUpTo
    rw [h1]
    ring
  · simp only [compute_sum_terms]
    omega

/-- Witness for C1 at a concrete instance: `rexp` and `quad` constantly
`1`, `rsqrt` the identity, `α = β = 0`, `ν = 0·0`, `tol = 1`. -/
theorem spec_c1_series_convergence_witness :
    (∀ x, x ≤ 0 → phi_integral (fun _ => (1 : ℚ)) (fun _ => (1 : ℚ)) x = 0) ∧
      Monotone (sumUpTo (fun _ => (1 : ℚ)) (fun x => x) (fun _ => (1 : ℚ)) 0 0
        ((0 : ℚ) * 0) ⌈(0 : ℚ) * 0⌉) ∧
      compute_sum (fun _ => (1 : ℚ)) (fun x => x) (fun _ => (1 : ℚ)) 0 0 0 0 1 =
        sumUpTo (fun _ => (1 : ℚ)) (fun x => x) (fun _ => (1 : ℚ)) 0 0
          ((0 : ℚ) * 0) ⌈(0 : ℚ) * 0⌉
          (compute_sum_terms (fun _ => (1 : ℚ)) (fun x => x) (fun _ => (1 : ℚ))
            0 0 0 0 1) ∧
      compute_sum_terms (fun _ => (1 : ℚ)) (fun x => x) (fun _ => (1 : ℚ))
        0 0 0 0 1 ≤ 201 :=
  spec_c1_series_convergence (fun _ => (1 : ℚ)) (fun x => x) (fun _ => (1 : ℚ))
    0 0 0 0 1 le_rfl le_rfl one_pos (fun _ => by norm_num) (fun _ _ => by norm_num)

theorem any_nonfinite_eq_false_iff (l : List (List FV)) :
    (l.any (fun row => row.any (fun v => !v.isFinite)) = false) ↔
      ∀ row ∈ l, ∀ v ∈ row, v.isFinite = true := by
  rw [List.any_eq_false]
  constructor
  · intro h row hrow v hv
    have h2 := h row hrow
    rw [Bool.not_eq_true, List.any_eq_false] at h2
    have h3 := h2 v hv
    simpa using h3
  · intro h row hrow
    rw [Bool.not_eq_true, List.any_eq_false]
    intro v hv
    simpa using h row hrow v hv

/-- C5: the commit-time validation fails the run (exiting with status 1,
before any further step executes) if and only if the envelope or the
density contains a non-finite value; with `exit_on_error` disabled,
`validate_step` returns `True` exactly when every envelope and density
entry is finite. -/
theorem spec_c5_commit_validation (envelope_rt density_rt : List (List FV)) :
    (validate_step envelope_rt density_rt true = ValidateOutcome.exited 1 ↔
      ¬ ((∀ row ∈ envelope_rt, ∀ v ∈ row, v.isFinite = true) ∧
        ∀ row ∈ density_rt, ∀ v ∈ row, v.isFinite = true)) ∧
      (validate_step envelope_rt density_rt false = ValidateOutcome.ok ↔
        ((∀ row ∈ envelope_rt, ∀ v ∈ row, v.isFinite = true) ∧
          ∀ row ∈ density_rt, ∀ v ∈ row, v.isFinite = true)) ∧
      (validate_step envelope_rt density_rt true = ValidateOutcome.ok ↔
        ((∀ row ∈ envelope_rt, ∀ v ∈ row, v.isFinite = true) ∧
          ∀ row ∈ density_rt, ∀ v ∈ row, v.isFinite = true)) := by
  cases he : envelope_rt.any (fun row => row.any (fun v => !v.isFinite)) with
  | true =>
    have hne : ¬ ∀ row ∈ envelope_rt, ∀ v ∈ row, v.isFinite = true := by
      intro hall
      have hf := (any_nonfinite_eq_false_iff envelope_rt).mpr hall
      rw [he] at hf
      exact Bool.noConfusion hf
    have hv1 : validate_step envelope_rt density_rt true = ValidateOutcome.exited 1 := by
      unfold validate_step
      rw [he]
      rfl
    have hv0 : validate_step envelope_rt density_rt false = ValidateOutcome.invalid := by
      unfold validate_step
      rw [he]
      rfl
    rw [hv1, hv0]
    refine ⟨⟨fun _ hab => hne hab.1, fun _ => rfl⟩,
      ⟨fun h => absurd h (by decide), fun hab => absurd hab.1 hne⟩,
      ⟨fun h => absurd h (by decide), fun hab => absurd hab.1 hne⟩⟩
  | false =>
    have hey := (any_nonfinite_eq_false_iff envelope_rt).mp he
    cases hd : density_rt.any (fun row => row.any (fun v => !v.isFinite)) with
    | true =>
      have hne : ¬ ∀ row ∈ density_rt, ∀ v ∈ row, v.isFinite = true := by
        intro hall
        have hf := (any_nonfinite_eq_false_iff density_rt).mpr hall
        rw [hd] at hf
        exact Bool.noConfusion hf
      have hv1 : validate_step envelope_rt density_rt true =
          ValidateOutcome.exited 1 := by
        unfold validate_step
        rw [he, hd]
        rfl
      have hv0 : validate_step envelope_rt density_rt false =
          ValidateOutcome.invalid := by
        unfold validate_step
        rw [he, hd]
        rfl
      rw [hv1, hv0]
      refine ⟨⟨fun _ hab => hne hab.2, fun _ => rfl⟩,
        ⟨fun h => absurd h (by decide), fun hab => absurd hab.2 hne⟩,
        ⟨fun h => absurd h (by decide), fun hab => absurd hab.2 hne⟩⟩
    | false =>
      have hdy := (any_nonfinite_eq_false_iff density_rt).mp hd
      have hv1 : validate_step envelope_rt density_rt true = ValidateOutcome.ok := by
        unfold validate_step
        rw [he, hd]
        rfl
      have hv0 : validate_step envelope_rt density_rt false = ValidateOutcome.ok := by
        unfold validate_step
        rw [he, hd]
        rfl
      rw [hv1, hv0]
      refine ⟨⟨fun h => absurd h (by decide), fun hn => absurd ⟨hey, hdy⟩ hn⟩,
        ⟨fun _ => ⟨hey, hdy⟩, fun _ => rfl⟩, ⟨fun _ => ⟨hey, hdy⟩, fun _ => rfl⟩⟩

/-- C4: when the group-velocity-dispersion coefficient is zero, the
precomputed spectral phase factor equals `1` at every frequency, and
applying the dispersion step returns the input envelope unchanged
(exactly, in the rational model; the transform pair is assumed to be a
round-trip pair, which is the cited property of the FFT library). -/
theorem spec_c4_zero_gvd_identity
    (compute_fft compute_ifft : (ℕ → CQ) → ℕ → CQ) (cexp : CQ → CQ)
    (z_res k_pp t_res : ℚ) (w_grid : ℕ → ℚ)
    (hinv : ∀ x, compute_fft (compute_ifft x) = x)
    (hexp0 : cexp 0 = 1) (hk : k_pp = 0) :
    (∀ w, disp_exp cexp z_res k_pp t_res w = 1) ∧
      ∀ envelope_row, compute_dispersion compute_fft compute_ifft cexp
        z_res k_pp t_res w_grid envelope_row = envelope_row := by
  subst hk
  have hphase : ∀ w, disp_exp cexp z_res 0 t_res w = 1 := by
    intro w
    unfold disp_exp disp_c
    have hq : -2 * (-(1 / 4) * z_res * 0 / t_res ^ 2) * (w * t_res) ^ 2 = (0 : ℚ) := by
      ring
    rw [hq]
    exact hexp0
  refine ⟨hphase, ?_⟩
  intro envelope_row
  unfold compute_dispersion
  have hrow : (fun n => disp_exp cexp z_res 0 t_res (w_grid n) *
      compute_ifft envelope_row n) = compute_ifft envelope_row := by
    funext n
    rw [hphase, CQ.one_mul_self]
  rw [hrow, hinv]

/-- Witness for C4: identity transforms, `cexp` sending `0` to `1`,
`k_pp = 0`. -/
theorem spec_c4_zero_gvd_identity_witness :
    (∀ w, disp_exp (fun z => if z = 0 then 1 else 0) 1 0 1 w = 1) ∧
      ∀ envelope_row, compute_dispersion (fun x => x) (fun x => x)
        (fun z => if z = 0 then 1 else 0) 1 0 1 (fun _ => 0) envelope_row =
          envelope_row :=
  spec_c4_zero_gvd_identity (fun x => x) (fun x => x)
    (fun z => if z = 0 then 1 else 0) 1 0 1 (fun _ => 0)
    (fun _ => rfl) (by simp) rfl

/-- C10: in the multiphoton model the rate is the elementwise power law
`coef_ofi · |E|^(2K)`, and doubling the amplitude scales the rate
pointwise by exactly `2^(2K)`. -/
theorem spec_c10_mpi_power_law (rexp rsqrt rasinh quad : ℚ → ℚ)
    (rpow : ℚ → ℚ → ℚ) (env ion_rate ion_sum : Mat) (n_k n_r n_t : ℕ)
    (coef_f0 coef_ns coef_ga coef_nu coef_ion coef_ofi tol : ℚ) (i j : ℕ) :
    (compute_ionization rexp rsqrt rasinh quad rpow env ion_rate ion_sum
        n_k n_r n_t coef_f0 coef_ns coef_ga coef_nu coef_ion coef_ofi
        "mpi" tol).toOption.map (fun p => p.1 i j) =
      some (coef_ofi * |env i j| ^ (2 * n_k)) ∧
      (compute_ionization rexp rsqrt rasinh quad rpow (fun a b => 2 * env a b)
          ion_rate ion_sum n_k n_r n_t coef_f0 coef_ns coef_ga coef_nu coef_ion
          coef_ofi "mpi" tol).toOption.map (fun p => p.1 i j) =
        some (2 ^ (2 * n_k) * (coef_ofi * |env i j| ^ (2 * n_k))) := by
  constructor
  · rfl
  · show some (coef_ofi * |2 * env i j| ^ (2 * n_k)) = _
    congr 1
    rw [abs_mul, abs_two, mul_pow]
    ring

/-- C8: for every model identifier other than `"mpi"` and `"ppt"`,
`compute_ionization` fails with the unrecognized-model error and no
update of the pre-allocated rate/sum arrays is produced (the error is
raised before any mutation). -/
theorem spec_c8_invalid_model (rexp rsqrt rasinh quad : ℚ → ℚ)
    (rpow : ℚ → ℚ → ℚ) (env ion_rate ion_sum : Mat) (n_k n_r n_t : ℕ)
    (coef_f0 coef_ns coef_ga coef_nu coef_ion coef_ofi tol : ℚ)
    (ion_model : String) (h1 : ion_model ≠ "mpi") (h2 : ion_model ≠ "ppt") :
    compute_ionization rexp rsqrt rasinh quad rpow env ion_rate ion_sum
        n_k n_r n_t coef_f0 coef_ns coef_ga coef_nu coef_ion coef_ofi
        ion_model tol =
      Except.error ("Not available ionization model: " ++ ion_model ++
        ". Available models are: ppt or mpi.") := by
  unfold compute_ionization
  rw [if_neg h1, if_neg h2]

/-- Witness for C8 at the concrete unknown model string `"abc"`. -/
theorem spec_c8_invalid_model_witness :
    ("abc" : String) ≠ "mpi" ∧ ("abc" : String) ≠ "ppt" ∧
      compute_ionization (fun x => x) (fun x => x) (fun x => x) (fun x => x)
          (fun x _ => x) (fun _ _ => 0) (fun _ _ => 0) (fun _ _ => 0) 1 1 1
          0 0 0 0 0 0 "abc" 1 =
        Except.error ("Not available ionization model: " ++ "abc" ++
          ". Available models are: ppt or mpi.") :=
  ⟨by decide, by decide,
    spec_c8_invalid_model (fun x => x) (fun x => x) (fun x => x) (fun x => x)
      (fun x _ => x) (fun _ _ => 0) (fun _ _ => 0) (fun _ _ => 0) 1 1 1
      0 0 0 0 0 0 1 "abc" (by decide) (by decide)⟩

/-- C6 amended: in the PPT branch, at a grid point whose field
magnitude is below `1e-12` only the series summation is skipped — the
`ion_sum` entry keeps its prior value — while the subsequent full-slice
assignment still overwrites the rate entry with
`coef_ion · ns_term · g_term · g_term_2` (all computed from the
low-field auxiliary quantities) times that prior sum value (zero when
the scratch sum was zero). -/
theorem spec_c6_low_field_skip (rexp rsqrt rasinh quad : ℚ → ℚ)
    (rpow : ℚ → ℚ → ℚ) (env ion_rate ion_sum : Mat) (n_k n_r n_t : ℕ)
    (coef_f0 coef_ns coef_ga coef_nu coef_ion coef_ofi tol : ℚ) (i j : ℕ)
    (hskip : |env i j| < 1 / 10 ^ 12) :
    ∃ p, compute_ionization rexp rsqrt rasinh quad rpow env ion_rate ion_sum
        n_k n_r n_t coef_f0 coef_ns coef_ga coef_nu coef_ion coef_ofi
        "ppt" tol = Except.ok p ∧
      p.2 i j = ion_sum i j ∧
      p.1 i j = coef_ion *
        ppt_ns_term rsqrt rpow coef_f0 coef_ns coef_ga |env i j| *
        ppt_g_term rexp rsqrt rasinh coef_f0 coef_ga |env i j| *
        ppt_g_term_2 rsqrt coef_ga |env i j| * ion_sum i j := by
  have hcond : ¬ (i < n_r ∧ j < n_t ∧ ¬ |env i j| < 1 / 10 ^ 12) :=
    fun h => h.2.2 hskip
  unfold compute_ionization
  rw [if_neg (by decide), if_pos rfl]
  refine ⟨_, rfl, ?_, ?_⟩
  · show (if i < n_r ∧ j < n_t ∧ ¬ |env i j| < 1 / 10 ^ 12 then
        compute_sum rexp rsqrt quad
          (compute_a_gamma (rasinh (coef_ga / |env i j|))
            (compute_b_gamma rsqrt (coef_ga / |env i j|)))
          (compute_b_gamma rsqrt (coef_ga / |env i j|)) (coef_ga / |env i j|)
          coef_nu tol
      else ion_sum i j) = ion_sum i j
    rw [if_neg hcond]
  · show coef_ion * ppt_ns_term rsqrt rpow coef_f0 coef_ns coef_ga |env i j| *
        ppt_g_term rexp rsqrt rasinh coef_f0 coef_ga |env i j| *
        ppt_g_term_2 rsqrt coef_ga |env i j| *
        (if i < n_r ∧ j < n_t ∧ ¬ |env i j| < 1 / 10 ^ 12 then
          compute_sum rexp rsqrt quad
            (compute_a_gamma (rasinh (coef_ga / |env i j|))
              (compute_b_gamma rsqrt (coef_ga / |env i j|)))
            (compute_b_gamma rsqrt (coef_ga / |env i j|)) (coef_ga / |env i j|)
            coef_nu tol
        else ion_sum i j) = _
    rw [if_neg hcond]

/-- Witness for C6 (amended) at a concrete skipped point: the field
magnitude at `(0,0)` is `1e-13 < 1e-12`, the prior sum entry is `7`. -/
theorem spec_c6_low_field_skip_witness :
    |(1 / 10 ^ 13 : ℚ)| < 1 / 10 ^ 12 ∧
      ∃ p, compute_ionization (fun _ => 1) (fun x => x) (fun x => x)
          (fun _ => 1) (fun _ _ => 1) (fun _ _ => 1 / 10 ^ 13) (fun _ _ => 5)
          (fun _ _ => 7) 1 1 1 1 1 0 1 1 1 "ppt" 1 = Except.ok p ∧
        p.2 0 0 = 7 ∧
        p.1 0 0 = 1 * ppt_ns_term (fun x => x) (fun _ _ => 1) 1 1 0
            |(1 / 10 ^ 13 : ℚ)| *
          ppt_g_term (fun _ => 1) (fun x => x) (fun x => x) 1 0
            |(1 / 10 ^ 13 : ℚ)| *
          ppt_g_term_2 (fun x => x) 0 |(1 / 10 ^ 13 : ℚ)| * 7 :=
  ⟨by rw [abs_of_pos (by norm_num)]; norm_num,
    spec_c6_low_field_skip (fun _ => 1) (fun x => x) (fun x => x) (fun _ => 1)
      (fun _ _ => 1) (fun _ _ => 1 / 10 ^ 13) (fun _ _ => 5) (fun _ _ => 7)
      1 1 1 1 1 0 1 1 1 1 0 0
      (by show |(1 / 10 ^ 13 : ℚ)| < 1 / 10 ^ 12
          rw [abs_of_pos (by norm_num)]
          norm_num)⟩

/-- C6 counterexample: at the concrete PPT instance below, the point
`(0,0)` has field magnitude `1e-13 < 1e-12` and is skipped by the
series loop, yet its ionization-rate entry is NOT left at its prior
value: the rate array held `5` there before the call and holds `0`
afterwards (the full-slice assignment recomputed it from the low-field
auxiliary prefactors times the prior sum value `0`). -/
theorem spec_c6_counterexample :
    (1 / 10 ^ 13 : ℚ) < 1 / 10 ^ 12 ∧
      (compute_ionization (fun _ => 1) (fun x => x) (fun x => x) (fun _ => 1)
          (fun _ _ => 1) (fun _ _ => 1 / 10 ^ 13) (fun _ _ => 5) (fun _ _ => 0)
          1 1 1 1 1 0 1 1 1 "ppt" 1).toOption.map (fun p => p.1 0 0) =
        some 0 ∧
      (5 : ℚ) ≠ 0 := by
  refine ⟨by norm_num, ?_, by norm_num⟩
  have hcond : ¬ ((0 : ℕ) < 1 ∧ (0 : ℕ) < 1 ∧
      ¬ |(1 / 10 ^ 13 : ℚ)| < 1 / 10 ^ 12) := by
    intro h
    refine h.2.2 ?_
    rw [abs_of_pos (by norm_num)]
    norm_num
  show some ((1 : ℚ) * ppt_ns_term (fun x => x) (fun _ _ => 1) 1 1 0
      |(1 / 10 ^ 13 : ℚ)| *
      ppt_g_term (fun _ => 1) (fun x => x) (fun x => x) 1 0
        |(1 / 10 ^ 13 : ℚ)| *
      ppt_g_term_2 (fun x => x) 0 |(1 / 10 ^ 13 : ℚ)| *
      (if (0 : ℕ) < 1 ∧ (0 : ℕ) < 1 ∧ ¬ |(1 / 10 ^ 13 : ℚ)| < 1 / 10 ^ 12 then
        compute_sum (fun _ => 1) (fun x => x) (fun _ => 1)
          (compute_a_gamma ((fun x => x) (0 / |(1 / 10 ^ 13 : ℚ)|))
            (compute_b_gamma (fun x => x) (0 / |(1 / 10 ^ 13 : ℚ)|)))
          (compute_b_gamma (fun x => x) (0 / |(1 / 10 ^ 13 : ℚ)|))
          (0 / |(1 / 10 ^ 13 : ℚ)|) 1 1
      else 0)) = some 0
  rw [if_neg hcond, mul_zero]

/-- C3 counterexample: with every method set to `"RK4"` and Raman
enabled, the phases of one `solve_step` restricted to the
specification's seven phases execute in the order
ionization → density → Raman → dispersion → nonlinear → diffraction →
commit, which differs from the claimed order (nonlinear assembly before
dispersion). -/
theorem spec_c3_counterexample :
    (@solve_step Unit Unit
        ⟨fun _ => (), fun _ => ((), ()), fun _ _ _ => (), fun _ _ _ => (),
          fun _ _ _ => ((), ()), fun _ _ => (), (), fun _ => (),
          fun _ _ _ _ => (), fun _ _ => (), fun _ => (), fun _ => ()⟩
        "RK4" "RK4" "RK4" true
        ⟨(), (), (), (), (), (), (), (), (), (), (), ()⟩).2.filter
        (fun e => decide (e ∈ specPhases)) =
      [StepEvent.ionization, StepEvent.density, StepEvent.raman,
        StepEvent.dispersion, StepEvent.nonlinear, StepEvent.diffraction,
        StepEvent.commit] ∧
      [StepEvent.ionization, StepEvent.density, StepEvent.raman,
        StepEvent.dispersion, StepEvent.nonlinear, StepEvent.diffraction,
        StepEvent.commit] ≠ specPhases := by
  decide

/-- C3 amended: one propagation step executes exactly
intensity/ionization → density advance → Raman advance (or zero fill
when Raman is disabled) → dispersion → nonlinear assembly (performed
only when the nonlinear method is `"RK4"`, and after the dispersion
step, from the dispersed envelope) → implicit diffraction solve →
fluence/radius diagnostics → buffer commit; the only branching is the
configuration-time method/model selection. -/
theorem spec_c3_step_sequence {E R : Type} (ops : FssOps E R)
    (method_d method_r : String) (use_raman : Bool) (s0 : FssBuffers E R) :
    (solve_step ops method_d method_r "RK4" use_raman s0).2 =
        [StepEvent.intensity, StepEvent.ionization, StepEvent.density,
          StepEvent.raman, StepEvent.dispersion, StepEvent.nonlinear,
          StepEvent.diffraction, StepEvent.fluence, StepEvent.radius,
          StepEvent.commit] ∧
      ∀ method_nl, method_nl ≠ "RK4" →
        (solve_step ops method_d method_r method_nl use_raman s0).2 =
          [StepEvent.intensity, StepEvent.ionization, StepEvent.density,
            StepEvent.raman, StepEvent.dispersion, StepEvent.diffraction,
            StepEvent.fluence, StepEvent.radius, StepEvent.commit] := by
  constructor
  · rfl
  · intro method_nl hm
    show ([StepEvent.intensity, StepEvent.ionization, StepEvent.density,
        StepEvent.raman, StepEvent.dispersion] ++
      (if method_nl = "RK4" then [StepEvent.nonlinear] else []) ++
      [StepEvent.diffraction, StepEvent.fluence, StepEvent.radius,
        StepEvent.commit]) = _
    rw [if_neg hm]
    rfl

/-- Witness for C3 (amended) on the trivial state with all components
trivial, checking both the `"RK4"` trace and a non-`"RK4"` nonlinear
method (`"euler"`), whose trace contains no nonlinear-assembly phase. -/
theorem spec_c3_step_sequence_witness :
    (@solve_step Unit Unit
        ⟨fun _ => (), fun _ => ((), ()), fun _ _ _ => (), fun _ _ _ => (),
          fun _ _ _ => ((), ()), fun _ _ => (), (), fun _ => (),
          fun _ _ _ _ => (), fun _ _ => (), fun _ => (), fun _ => ()⟩
        "RK4" "RK4" "RK4" true
        ⟨(), (), (), (), (), (), (), (), (), (), (), ()⟩).2 =
        [StepEvent.intensity, StepEvent.ionization, StepEvent.density,
          StepEvent.raman, StepEvent.dispersion, StepEvent.nonlinear,
          StepEvent.diffraction, StepEvent.fluence, StepEvent.radius,
          StepEvent.commit] ∧
      ("euler" : String) ≠ "RK4" ∧
      (@solve_step Unit Unit
          ⟨fun _ => (), fun _ => ((), ()), fun _ _ _ => (), fun _ _ _ => (),
            fun _ _ _ => ((), ()), fun _ _ => (), (), fun _ => (),
            fun _ _ _ _ => (), fun _ _ => (), fun _ => (), fun _ => ()⟩
          "RK4" "RK4" "euler" true
          ⟨(), (), (), (), (), (), (), (), (), (), (), ()⟩).2 =
        [StepEvent.intensity, StepEvent.ionization, StepEvent.density,
          StepEvent.raman, StepEvent.dispersion, StepEvent.diffraction,
          StepEvent.fluence, StepEvent.radius, StepEvent.commit] :=
  ⟨(spec_c3_step_sequence
      ⟨fun _ => (), fun _ => ((), ()), fun _ _ _ => (), fun _ _ _ => (),
        fun _ _ _ => ((), ()), fun _ _ => (), (), fun _ => (),
        fun _ _ _ _ => (), fun _ _ => (), fun _ => (), fun _ => ()⟩
      "RK4" "RK4" true
      ⟨(), (), (), (), (), (), (), (), (), (), (), ()⟩).1,
    by decide,
    (spec_c3_step_sequence
      ⟨fun _ => (), fun _ => ((), ()), fun _ _ _ => (), fun _ _ _ => (),
        fun _ _ _ => ((), ()), fun _ _ => (), (), fun _ => (),
        fun _ _ _ _ => (), fun _ _ => (), fun _ => (), fun _ => ()⟩
      "RK4" "RK4" true
      ⟨(), (), (), (), (), (), (), (), (), (), (), ()⟩).2 "euler" (by decide)⟩

/-- C9 counterexample: committing with current-buffer contents `0` and
next-buffer contents `1` leaves BOTH buffers holding `1`; the next
buffer does not hold the pre-step envelope `0`, so the buffers are not
swapped as the claim states. -/
theorem spec_c9_counterexample :
    commit_swap (⟨0, 1⟩ : EnvelopePair ℚ) = ⟨1, 1⟩ ∧
      commit_swap (⟨0, 1⟩ : EnvelopePair ℚ) ≠ ⟨1, 0⟩ := by
  decide

/-- C9 amended: after the commit the current buffer holds the newly
solved envelope (the pre-commit contents of the next buffer), and the
next buffer also ends up holding that same newly solved envelope — not
the pre-step envelope — because the second in-place copy reads the
already-overwritten current buffer; the two buffers remain distinct
array objects throughout, but with equal contents after each commit. -/
theorem spec_c9_commit_copies {E : Type} (s : EnvelopePair E) :
    (commit_swap s).envelope_rt = s.envelope_next_rt ∧
      (commit_swap s).envelope_next_rt = s.envelope_next_rt :=
  ⟨rfl, rfl⟩
